import Mathlib

/-!
# Shallow embedding of the BehaviorTree.CPP Blackboard (blackboard.h)

This file models the scope store (`BT::Blackboard`) from
`src/include/behaviortree_cpp/blackboard.h`. The templated member functions
`Blackboard::set`, both overloads of `Blackboard::get` and `Blackboard::unset`
are defined inline in that header and are translated here directly. The
out-of-line parts of the class (`getEntry`, `createEntryImpl`,
`addSubtreeRemapping`) and the helper types from `safe_any.hpp` /
`basic_types.h` (`Any`, `TypeInfo`, `isCastingSafe`, the string converters)
are not part of the available sources; those definitions are modelled from
the specification and are marked as such in their doc comments.

C++ machine types are represented by an explicit universe of type identities
`Ty` and a universe of runtime values `Val`; the template parameter `T` of
`Blackboard::set<T>` is represented by `SetArg`, which distinguishes a value
of a concrete C++ type, a string literal (whose deduced `T` is a character
array, not `std::string`) and a `BT::Any` argument.
-/

set_option autoImplicit false

namespace BT

/-- Runtime type identities (`std::type_index` values) relevant to the store:
`int`, `uint8_t`, `std::string`, character arrays (deduced type of a string
literal), `AnyTypeAllowed` (the open/generic port marker), `BT::Any` itself,
`void` (type of an empty `Any`) and a family of other unrelated types. -/
inductive Ty where
  | tInt
  | tUInt8
  | tString
  | tCharArr
  | tAnyTypeAllowed
  | tAnyBox
  | tVoid
  | tOther (n : Nat)
deriving DecidableEq

/-- Modelled from the spec (§3 TypeDescriptor, `basic_types.h` is not in the
sources): a type identity is "strongly typed" unless it is the open/generic
marker `AnyTypeAllowed` or `BT::Any` itself. -/
def Ty.isStronglyTyped : Ty → Bool
  | .tAnyTypeAllowed => false
  | .tAnyBox => false
  | _ => true

/-- Runtime values stored in the blackboard. -/
inductive Val where
  | vInt (i : Int)
  | vUInt8 (n : Nat)
  | vString (s : String)
  | vOther (tag : Nat) (payload : Nat)
deriving DecidableEq

/-- The runtime type identity of a value. -/
def Val.runtimeTy : Val → Ty
  | .vInt _ => .tInt
  | .vUInt8 _ => .tUInt8
  | .vString _ => .tString
  | .vOther t _ => .tOther t

/-- Whether a value is of a numeric type. -/
def Val.isNumber : Val → Bool
  | .vInt _ => true
  | .vUInt8 _ => true
  | _ => false

/-- Modelled from the spec (§2, §3 TypeErasedValue; `safe_any.hpp` is not in
the sources): `BT.Any` holds at most one value of a type not known at compile
time, with an "empty" state meaning "declared but never assigned". -/
structure Any where
  val : Option Val
deriving DecidableEq

/-- The runtime type identity reported by an `Any` (`Any::type()`); an empty
`Any` reports `void`. -/
def Any.type : Any → Ty
  | ⟨some v⟩ => v.runtimeTy
  | ⟨none⟩ => .tVoid

/-- `Any::empty()`. -/
def Any.empty (a : Any) : Bool := a.val.isNone

/-- Failure modes of `Any::cast<T>()`. -/
inductive CastError where
  | uninitValue
  | typeMismatch
deriving DecidableEq

/-- Modelled from the spec (§4.1, `safe_any.hpp` is not in the sources):
`cast<T>()` returns the stored value; it fails when the `Any` is empty or
when the stored runtime type identity differs from `T`. -/
def Any.cast (a : Any) (ty : Ty) : Except CastError Val :=
  match a.val with
  | none => .error .uninitValue
  | some v => if v.runtimeTy = ty then .ok v else .error .typeMismatch

/-- Modelled from the spec (§4.1, §4.2.3c; `safe_any.hpp` is not in the
sources): `Any::copyInto(dst)` assigns into an empty destination directly and
otherwise copies only if the two runtime types are compatible — the same
identity, or both numeric (the numeric fallback path of `set` relies on the
copy succeeding between numeric types). Incompatibility is a failure
signalled to the caller. -/
def Any.copyInto (src dst : Any) : Option Any :=
  match dst.val with
  | none => some src
  | some d =>
    match src.val with
    | none => none
    | some s =>
      if s.runtimeTy = d.runtimeTy ∨ (s.isNumber ∧ d.isNumber) then some src
      else none

/-- Accumulate a decimal digit string into a number; any non-digit character
makes the parse fail. -/
def parseDigitsAux : List Char → Nat → Option Nat
  | [], acc => some acc
  | c :: cs, acc =>
    if '0' ≤ c ∧ c ≤ '9' then parseDigitsAux cs (acc * 10 + (c.toNat - 48))
    else none

/-- Parse a decimal integer: an optional leading minus sign followed by a
nonempty digit string. -/
def parseIntString (s : String) : Option Int :=
  match s.data with
  | [] => none
  | '-' :: cs =>
    match cs with
    | [] => none
    | _ => (parseDigitsAux cs 0).map (fun n => -(n : Int))
  | cs => (parseDigitsAux cs 0).map (fun n => (n : Int))

/-- Modelled from the spec (§4.1; the converter registry of `basic_types.h`
is not in the sources): the registered string-to-value parser for a declared
target type. An empty result signals "not convertible", never an error. -/
def parseStringAs : Ty → String → Option Val
  | .tInt, s => (parseIntString s).map Val.vInt
  | .tUInt8, s =>
    match parseIntString s with
    | some i => if 0 ≤ i ∧ i < 256 then some (.vUInt8 i.toNat) else none
    | none => none
  | .tString, s => some (.vString s)
  | .tCharArr, s => some (.vString s)
  | _, _ => none

/-- The slot's type descriptor (`TypeInfo`): the declared type identity.
Open/generic descriptors are those whose identity is not strongly typed. -/
structure TypeInfo where
  ty : Ty
deriving DecidableEq

/-- `TypeInfo::isStronglyTyped()`. -/
def TypeInfo.isStronglyTyped (i : TypeInfo) : Bool := i.ty.isStronglyTyped

/-- `TypeInfo::parseString` applied through the slot's registered converter. -/
def TypeInfo.parseString (i : TypeInfo) (s : String) : Option Val :=
  parseStringAs i.ty s

/-- `PortInfo(PortDirection::INOUT)`: the open/generic descriptor used when a
new entry is created from a `std::string` value. -/
def openPortInfo : TypeInfo := ⟨.tAnyTypeAllowed⟩

/-- The argument of a call `Blackboard::set<T>(key, value)`, keeping track of
the statically deduced template parameter `T`:
* `concrete v` — `T` is the concrete C++ type of `v` (`int`, `uint8_t`,
  `std::string`, ...);
* `literal s` — the call site passed a string literal, so `T` is deduced as a
  character array (not `std::string`), while the constructed `Any` stores the
  text as a string value;
* `anyBox a` — `T` is `BT::Any` itself. -/
inductive SetArg where
  | concrete (v : Val)
  | literal (s : String)
  | anyBox (a : Any)
deriving DecidableEq

/-- `std::type_index(typeid(T))` for the template parameter of the call. -/
def SetArg.staticTy : SetArg → Ty
  | .concrete v => v.runtimeTy
  | .literal _ => .tCharArr
  | .anyBox _ => .tAnyBox

/-- `Any new_value(value)` — the type-erased copy of the argument. -/
def SetArg.toAny : SetArg → Any
  | .concrete v => ⟨some v⟩
  | .literal s => ⟨some (.vString s)⟩
  | .anyBox a => a

/-- `std::is_constructible<StringView, T>::value`. -/
def SetArg.isStringLike : SetArg → Bool
  | .concrete (.vString _) => true
  | .literal _ => true
  | _ => false

/-- The text carried by a string-like argument. -/
def SetArg.stringOf : SetArg → Option String
  | .concrete (.vString s) => some s
  | .literal s => some s
  | _ => none

/-- `std::is_arithmetic_v<T>`. -/
def SetArg.isArithmetic : SetArg → Bool
  | .concrete v => v.isNumber
  | _ => false

/-- `std::is_same_v<BT::Any, T>`. -/
def SetArg.isAnyBox : SetArg → Bool
  | .anyBox _ => true
  | _ => false

/-- `std::is_same_v<std::string, T>` — true only for a value whose static
type is exactly `std::string`; in particular false for a string literal,
whose deduced `T` is a character array. -/
def SetArg.isPlainString : SetArg → Bool
  | .concrete (.vString _) => true
  | _ => false

/-- `TypeInfo::Create<T>()` for the template parameter of the call. -/
def SetArg.createTypeInfo : SetArg → TypeInfo
  | .concrete v => ⟨v.runtimeTy⟩
  | .literal _ => ⟨.tCharArr⟩
  | .anyBox _ => ⟨.tAnyBox⟩

/-- Modelled from the spec (§4.2.3c and the comment at `blackboard.h:242`;
`basic_types.h` is not in the sources): a numeric cast is safe iff the value
is representable in the target type without loss or sign error. -/
def isCastingSafe (target : Ty) (v : Val) : Bool :=
  match target, v with
  | .tUInt8, .vInt i => decide (0 ≤ i) && decide (i < 256)
  | .tUInt8, .vUInt8 _ => true
  | .tInt, .vInt _ => true
  | .tInt, .vUInt8 _ => true
  | _, _ => false

/-- The guard `std::is_arithmetic_v<T> && isCastingSafe(previous_type, value)`
from `blackboard.h:245-251`. -/
def SetArg.castingSafe (arg : SetArg) (target : Ty) : Bool :=
  match arg with
  | .concrete v => v.isNumber && isCastingSafe target v
  | _ => false

/-- A storage cell of the blackboard (`Blackboard::Entry`): the type-erased
value and its type descriptor. The per-entry mutex is modelled separately by
the lock-event traces below. -/
structure Entry where
  value : Any
  info : TypeInfo
deriving DecidableEq

/-- One scope of the store: its local key-to-entry map, the
internal-to-external remapping table and the auto-remapping flag. -/
structure Scope where
  storage : List (String × Entry)
  internalToExternal : List (String × String)
  autoremapping : Bool
deriving DecidableEq

/-- A blackboard together with its chain of ancestors: the head scope is the
blackboard itself, the tail is its parent chain (each blackboard has at most
one parent). -/
abbrev Blackboard := List Scope

/-- Association-list lookup (`std::unordered_map::find`). -/
def lookupList {α : Type} (l : List (String × α)) (k : String) : Option α :=
  match l with
  | [] => none
  | (k', v) :: rest => if k' = k then some v else lookupList rest k

/-- Replace the entry stored under an existing key. -/
def updateList (l : List (String × Entry)) (k : String) (e : Entry) :
    List (String × Entry) :=
  match l with
  | [] => []
  | (k', v) :: rest =>
    if k' = k then (k', e) :: rest else (k', v) :: updateList rest k e

/-- Update a scope's entry for a key already present in its storage. -/
def Scope.updateEntry (s : Scope) (k : String) (e : Entry) : Scope :=
  { s with storage := updateList s.storage k e }

/-- Insert a new entry into a scope's storage (`storage_.insert`). -/
def Scope.insertEntry (s : Scope) (k : String) (e : Entry) : Scope :=
  { s with storage := s.storage ++ [(k, e)] }

/-- Modelled from the spec (§4.3; `Blackboard::getEntry` is defined in the
missing `blackboard.cpp`): key resolution first checks the local slot table;
if absent, an explicit remap entry retries the lookup against the parent
scope under the external key, else the auto-remap flag retries it under the
same key; a store with no parent ignores remap and auto-remap, and an
unresolved key resolves to nothing regardless of ancestors. -/
def getEntryL : Blackboard → String → Option Entry
  | [], _ => none
  | s :: ps, key =>
    match lookupList s.storage key with
    | some e => some e
    | none =>
      match lookupList s.internalToExternal key with
      | some ext => if ps.isEmpty then none else getEntryL ps ext
      | none =>
        if s.autoremapping && !ps.isEmpty then getEntryL ps key else none

/-- Failure modes of `Blackboard::set` (thrown `LogicError` /
`RuntimeError`). -/
inductive SetError where
  | typeMismatch (declared offending : Ty)
  | copyIntoFailed
deriving DecidableEq

/-- The final commit step of `Blackboard::set` on an existing entry
(`blackboard.h:266-275`): `set<BT::Any>` assigns the new value directly,
every other instantiation copies through `Any::copyInto`, which fails on
incompatible runtime types. -/
def commitValue (e : Entry) (arg : SetArg) (nv : Any) : Except SetError Entry :=
  if arg.isAnyBox then .ok { e with value := nv }
  else
    match nv.copyInto e.value with
    | some merged => .ok { e with value := merged }
    | none => .error .copyIntoFailed

/-- The existing-entry branch of `Blackboard::set` (`blackboard.h:207-276`):
an entry that is not yet strongly typed is re-typed to `T` and assigned; a
strongly-typed entry runs the type-mismatch check with the string-parse and
safe-numeric-cast fallbacks before committing. -/
def setExisting (e : Entry) (arg : SetArg) : Except SetError Entry :=
  if e.info.isStronglyTyped = false then
    .ok { value := arg.toAny, info := arg.createTypeInfo }
  else if e.info.ty ≠ arg.staticTy ∧ e.info.ty ≠ (arg.toAny).type then
    match
      (if arg.isStringLike then (arg.stringOf).bind (parseStringAs e.info.ty)
       else none) with
    | some parsed => commitValue e arg ⟨some parsed⟩
    | none =>
      if arg.castingSafe e.info.ty then commitValue e arg arg.toAny
      else .error (.typeMismatch e.info.ty arg.staticTy)
  else commitValue e arg arg.toAny

/-- The entry created by the first `set` of a missing key
(`blackboard.h:186-201`): a `std::string` value creates an open/generic
descriptor, every other argument pins the descriptor to the runtime type of
the constructed `Any`. -/
def freshEntry (arg : SetArg) : Entry :=
  if arg.isPlainString then { value := arg.toAny, info := openPortInfo }
  else { value := arg.toAny, info := ⟨(arg.toAny).type⟩ }

/-- Outcome of `Blackboard::set`: either the updated store, or the error that
was thrown together with the store as left behind by the call. -/
inductive SetResult where
  | ok (bb : Blackboard)
  | err (e : SetError) (bb : Blackboard)
deriving DecidableEq

/-- The store left behind by a `set` call, successful or not. -/
def SetResult.state : SetResult → Blackboard
  | .ok bb => bb
  | .err _ bb => bb

/-- Re-attach the local scope around the outcome of a recursive `set` on the
parent chain. -/
def SetResult.consScope (s : Scope) : SetResult → SetResult
  | .ok bb => .ok (s :: bb)
  | .err e bb => .err e (s :: bb)

/-- `Blackboard::set` (`blackboard.h:178-277`): an existing local entry is
updated through the type-stability algorithm; a missing key is resolved
through the remapping table or the auto-remap flag against the parent chain
(the resolution of `createEntryImpl` is modelled from spec §4.3, the function
body being in the missing `blackboard.cpp`), and a key that resolves nowhere
creates a fresh local entry. -/
def setBB : Blackboard → String → SetArg → SetResult
  | [], _, _ => .ok []
  | s :: ps, key, arg =>
    match lookupList s.storage key with
    | some e =>
      match setExisting e arg with
      | .ok e' => .ok (s.updateEntry key e' :: ps)
      | .error er => .err er (s :: ps)
    | none =>
      match lookupList s.internalToExternal key with
      | some ext =>
        if ps.isEmpty then .ok (s.insertEntry key (freshEntry arg) :: ps)
        else (setBB ps ext arg).consScope s
      | none =>
        if s.autoremapping && !ps.isEmpty then (setBB ps key arg).consScope s
        else .ok (s.insertEntry key (freshEntry arg) :: ps)

/-- Failure modes of the throwing `Blackboard::get<T>`. -/
inductive GetError where
  | keyNotFound
  | uninitialized
  | castFail (e : CastError)
deriving DecidableEq

/-- The throwing `Blackboard::get<T>(key)` (`blackboard.h:144-161`): missing
key, then uninitialized entry, then `cast<T>` of the stored value. -/
def getT (bb : Blackboard) (ty : Ty) (key : String) : Except GetError Val :=
  match getEntryL bb key with
  | none => .error .keyNotFound
  | some e =>
    if e.value.empty then .error .uninitialized
    else
      match e.value.cast ty with
      | .ok v => .ok v
      | .error ce => .error (.castFail ce)

/-- Outcome of the non-throwing `Blackboard::get<T>(key, value&)`. -/
inductive GetOutResult where
  | notFound
  | found (v : Val)
  | castError (e : CastError)
deriving DecidableEq

/-- The non-throwing `Blackboard::get<T>(key, value&)`
(`blackboard.h:279-288`): returns "not found" only when the key resolves to
no entry; otherwise it unconditionally attempts `cast<T>` on the stored
value, whose failure propagates as an exception. -/
def getOut (bb : Blackboard) (ty : Ty) (key : String) : GetOutResult :=
  match getEntryL bb key with
  | none => .notFound
  | some e =>
    match e.value.cast ty with
    | .ok v => .found v
    | .error ce => .castError ce

/-- `Blackboard::entryInfo` — the descriptor of the resolved entry, if any
(modelled from spec §4.3; the body is in the missing `blackboard.cpp`). -/
def entryInfoL (bb : Blackboard) (key : String) : Option TypeInfo :=
  (getEntryL bb key).map (·.info)

/-- `Blackboard::create(parent)` — a fresh child scope on top of a parent
chain. -/
def Blackboard.create (parent : Blackboard) : Blackboard :=
  Scope.mk [] [] false :: parent

/-- `Blackboard::addSubtreeRemapping(internal, external)` (modelled from
spec §4.3/§6; the body is in the missing `blackboard.cpp`): records that the
internal key of this scope resolves to the external key of the parent. -/
def addSubtreeRemapping (bb : Blackboard) (internal external : String) :
    Blackboard :=
  match bb with
  | [] => []
  | s :: ps =>
    { s with internalToExternal := s.internalToExternal ++ [(internal, external)] } :: ps

/-!
## Lock-event traces

`Blackboard::set` acquires the store's structural mutex (`mutex_`,
`blackboard.h:181`) and, on the existing-entry branch, additionally the
entry's own mutex (`entry_mutex`, `blackboard.h:212`) before touching the
stored value. To reason about the locking discipline, the control flow of
`set` is translated into a trace of lock and value-access events. The
`lvl` index names the scope in the parent chain whose locks are involved
(0 is the scope the call was made on). -/

/-- Events emitted by a `set` call: structural-lock and per-entry-lock
acquisition and release, and accesses to an entry's stored value and
descriptor. -/
inductive BBEvent where
  | acqStruct (lvl : Nat)
  | relStruct (lvl : Nat)
  | acqSlot (lvl : Nat) (key : String)
  | relSlot (lvl : Nat) (key : String)
  | writeValue (lvl : Nat) (key : String)
  | writeDescriptor (lvl : Nat) (key : String)
deriving DecidableEq

/-- Lock events of the resolution/creation walk of `createEntryImpl`
(modelled from spec §4.3/§5; the body is in the missing `blackboard.cpp`):
each traversed scope acquires and releases its own structural lock, holding
it across the recursive call into the parent. -/
def createEntryEvents : Nat → Blackboard → String → List BBEvent
  | _, [], _ => []
  | lvl, s :: ps, key =>
    BBEvent.acqStruct lvl ::
    (match lookupList s.storage key with
     | some _ => []
     | none =>
       match lookupList s.internalToExternal key with
       | some ext => if ps.isEmpty then [] else createEntryEvents (lvl + 1) ps ext
       | none =>
         if s.autoremapping && !ps.isEmpty then createEntryEvents (lvl + 1) ps key
         else [])
    ++ [BBEvent.relStruct lvl]

/-- The event trace of `Blackboard::set` (`blackboard.h:178-277`). On the
existing-entry branch the structural lock stays held while the entry lock is
taken and the value (and, for a not-yet-strongly-typed entry, the
descriptor) is written; a thrown error releases both locks with no value
event. On the creation branch the structural lock is released around
`createEntryImpl` and re-acquired for the insertion and the initial value
write, which happens with no entry lock held. -/
def setEvents (bb : Blackboard) (key : String) (arg : SetArg) : List BBEvent :=
  match bb with
  | [] => []
  | s :: ps =>
    BBEvent.acqStruct 0 ::
    (match lookupList s.storage key with
     | some e =>
       [BBEvent.acqSlot 0 key] ++
       (match setExisting e arg with
        | .ok _ =>
          if e.info.isStronglyTyped then [BBEvent.writeValue 0 key]
          else [BBEvent.writeDescriptor 0 key, BBEvent.writeValue 0 key]
        | .error _ => []) ++
       [BBEvent.relSlot 0 key, BBEvent.relStruct 0]
     | none =>
       [BBEvent.relStruct 0] ++ createEntryEvents 0 (s :: ps) key ++
       [BBEvent.acqStruct 0, BBEvent.writeValue 0 key, BBEvent.relStruct 0])

/-- Scan a trace and record, for every access to the value or descriptor of
the entry of `key` at scope level 0, whether the level-0 structural lock and
the entry's own lock were held at that point (in this order). -/
def scanOps (key : String) : Nat → Nat → List BBEvent → List (Bool × Bool)
  | _, _, [] => []
  | sd, ed, BBEvent.acqStruct l :: rest =>
    scanOps key (if l = 0 then sd + 1 else sd) ed rest
  | sd, ed, BBEvent.relStruct l :: rest =>
    scanOps key (if l = 0 then sd - 1 else sd) ed rest
  | sd, ed, BBEvent.acqSlot l k :: rest =>
    scanOps key sd (if l = 0 ∧ k = key then ed + 1 else ed) rest
  | sd, ed, BBEvent.relSlot l k :: rest =>
    scanOps key sd (if l = 0 ∧ k = key then ed - 1 else ed) rest
  | sd, ed, BBEvent.writeValue l k :: rest =>
    (if l = 0 ∧ k = key then [(decide (0 < sd), decide (0 < ed))] else []) ++
      scanOps key sd ed rest
  | sd, ed, BBEvent.writeDescriptor l k :: rest =>
    (if l = 0 ∧ k = key then [(decide (0 < sd), decide (0 < ed))] else []) ++
      scanOps key sd ed rest

end BT

namespace BT

/-! ## Helper lemmas -/

theorem consScope_state (s : Scope) (r : SetResult) :
    (r.consScope s).state = s :: r.state := by
  cases r <;> rfl

theorem lookupList_update_self {l : List (String × Entry)} {k : String}
    {e0 e : Entry} (h : lookupList l k = some e0) :
    lookupList (updateList l k e) k = some e := by
  induction l with
  | nil => simp [lookupList] at h
  | cons p rest ih =>
    obtain ⟨k1, v⟩ := p
    by_cases hk : k1 = k
    · subst hk
      simp [lookupList, updateList]
    · simp [lookupList, updateList, hk] at h ⊢
      exact ih h

theorem lookupList_update_ne {l : List (String × Entry)} {k q : String}
    {e : Entry} (h : q ≠ k) :
    lookupList (updateList l k e) q = lookupList l q := by
  induction l with
  | nil => simp [updateList]
  | cons p rest ih =>
    obtain ⟨k1, v⟩ := p
    by_cases hk : k1 = k
    · subst hk
      have hkq : ¬(k1 = q) := fun hq => h (hq ▸ rfl)
      simp [updateList, lookupList, hkq]
    · simp [updateList, lookupList, hk, ih]

theorem lookupList_append_some {α : Type} {l l2 : List (String × α)}
    {k : String} {v : α} (h : lookupList l k = some v) :
    lookupList (l ++ l2) k = some v := by
  induction l with
  | nil => simp [lookupList] at h
  | cons p rest ih =>
    obtain ⟨k1, w⟩ := p
    by_cases hk : k1 = k
    · subst hk
      simp [lookupList] at h ⊢
      exact h
    · simp [lookupList, hk] at h ⊢
      exact ih h

theorem lookupList_append_none {α : Type} {l l2 : List (String × α)}
    {k : String} (h : lookupList l k = none) :
    lookupList (l ++ l2) k = lookupList l2 k := by
  induction l with
  | nil => rfl
  | cons p rest ih =>
    obtain ⟨k1, w⟩ := p
    by_cases hk : k1 = k
    · simp [lookupList, hk] at h
    · simp [lookupList, hk] at h ⊢
      exact ih h

theorem commitValue_info {e : Entry} {arg : SetArg} {nv : Any} {e1 : Entry}
    (h : commitValue e arg nv = .ok e1) : e1.info = e.info := by
  unfold commitValue at h
  split at h
  · cases h
    rfl
  · split at h
    · cases h
      rfl
    · simp at h

theorem setExisting_info {e : Entry} {arg : SetArg} {e1 : Entry}
    (h : setExisting e arg = .ok e1) :
    e1.info = e.info ∨ e.info.isStronglyTyped = false := by
  unfold setExisting at h
  split at h
  · next hopen =>
    exact Or.inr hopen
  · split at h
    · split at h
      · exact Or.inl (commitValue_info h)
      · split at h
        · exact Or.inl (commitValue_info h)
        · simp at h
    · exact Or.inl (commitValue_info h)

theorem setExisting_info_of_strong {e : Entry} {arg : SetArg} {e1 : Entry}
    (hst : e.info.isStronglyTyped = true)
    (h : setExisting e arg = .ok e1) : e1.info = e.info := by
  rcases setExisting_info h with h1 | h1
  · exact h1
  · rw [hst] at h1
    simp at h1

theorem setBB_state_length (bb : Blackboard) :
    ∀ (key : String) (arg : SetArg),
      ((setBB bb key arg).state).length = bb.length := by
  induction bb with
  | nil =>
    intro key arg
    rfl
  | cons s ps ih =>
    intro key arg
    cases hl : lookupList s.storage key with
    | some e =>
      cases hse : setExisting e arg with
      | ok e1 => simp [setBB, hl, hse, SetResult.state, Scope.updateEntry]
      | error er => simp [setBB, hl, hse, SetResult.state]
    | none =>
      cases hr : lookupList s.internalToExternal key with
      | some ext =>
        cases hps : ps.isEmpty with
        | true => simp [setBB, hl, hr, hps, SetResult.state, Scope.insertEntry]
        | false =>
          simp [setBB, hl, hr, hps, consScope_state, ih ext arg]
      | none =>
        cases hauto : s.autoremapping && !ps.isEmpty with
        | true => simp [setBB, hl, hr, hauto, consScope_state, ih key arg]
        | false => simp [setBB, hl, hr, hauto, SetResult.state, Scope.insertEntry]

theorem setBB_resolved_err (bb : Blackboard) :
    ∀ (key : String) (arg : SetArg) (e : Entry) (er : SetError),
      getEntryL bb key = some e → setExisting e arg = .error er →
      setBB bb key arg = .err er bb := by
  induction bb with
  | nil =>
    intro key arg e er h _
    simp [getEntryL] at h
  | cons s ps ih =>
    intro key arg e er hres hse
    cases hl : lookupList s.storage key with
    | some e0 =>
      have he : e0 = e := by simpa [getEntryL, hl] using hres
      subst he
      simp [setBB, hl, hse]
    | none =>
      cases hr : lookupList s.internalToExternal key with
      | some ext =>
        cases hps : ps.isEmpty with
        | true => simp [getEntryL, hl, hr, hps] at hres
        | false =>
          have hres2 : getEntryL ps ext = some e := by
            simpa [getEntryL, hl, hr, hps] using hres
          simp [setBB, hl, hr, hps, ih ext arg e er hres2 hse, SetResult.consScope]
      | none =>
        cases hauto : s.autoremapping && !ps.isEmpty with
        | false => simp [getEntryL, hl, hr, hauto] at hres
        | true =>
          have hres2 : getEntryL ps key = some e := by
            simpa [getEntryL, hl, hr, hauto] using hres
          simp [setBB, hl, hr, hauto, ih key arg e er hres2 hse, SetResult.consScope]

theorem setBB_resolved_ok (bb : Blackboard) :
    ∀ (key : String) (arg : SetArg) (e e1 : Entry),
      getEntryL bb key = some e → setExisting e arg = .ok e1 →
      ∃ bb2, setBB bb key arg = .ok bb2 ∧ getEntryL bb2 key = some e1 := by
  induction bb with
  | nil =>
    intro key arg e e1 h _
    simp [getEntryL] at h
  | cons s ps ih =>
    intro key arg e e1 hres hse
    cases hl : lookupList s.storage key with
    | some e0 =>
      have he : e0 = e := by simpa [getEntryL, hl] using hres
      subst he
      refine ⟨s.updateEntry key e1 :: ps, ?_, ?_⟩
      · simp [setBB, hl, hse]
      · simp [getEntryL, Scope.updateEntry, lookupList_update_self hl]
    | none =>
      cases hr : lookupList s.internalToExternal key with
      | some ext =>
        cases hps : ps.isEmpty with
        | true => simp [getEntryL, hl, hr, hps] at hres
        | false =>
          have hres2 : getEntryL ps ext = some e := by
            simpa [getEntryL, hl, hr, hps] using hres
          obtain ⟨bb2, hbb2, hget2⟩ := ih ext arg e e1 hres2 hse
          have hlen := setBB_state_length ps ext arg
          rw [hbb2] at hlen
          have hbb2ne : bb2.isEmpty = false := by
            cases bb2 with
            | nil =>
              cases ps with
              | nil => simp at hps
              | cons a l => simp [SetResult.state] at hlen
            | cons a l => rfl
          refine ⟨s :: bb2, ?_, ?_⟩
          · simp [setBB, hl, hr, hps, hbb2, SetResult.consScope]
          · simp [getEntryL, hl, hr, hbb2ne, hget2]
      | none =>
        cases hauto : s.autoremapping && !ps.isEmpty with
        | false => simp [getEntryL, hl, hr, hauto] at hres
        | true =>
          have hres2 : getEntryL ps key = some e := by
            simpa [getEntryL, hl, hr, hauto] using hres
          obtain ⟨bb2, hbb2, hget2⟩ := ih key arg e e1 hres2 hse
          have hlen := setBB_state_length ps key arg
          rw [hbb2] at hlen
          have hpse : ps.isEmpty = false := by
            cases ps with
            | nil => simp at hauto
            | cons a l => rfl
          have hbb2ne : bb2.isEmpty = false := by
            cases bb2 with
            | nil =>
              cases ps with
              | nil => simp at hpse
              | cons a l => simp [SetResult.state] at hlen
            | cons a l => rfl
          have hab : s.autoremapping = true := by
            simp only [Bool.and_eq_true] at hauto
            exact hauto.1
          refine ⟨s :: bb2, ?_, ?_⟩
          · simp [setBB, hl, hr, hauto, hbb2, SetResult.consScope]
          · simp [getEntryL, hl, hr, hab, hbb2ne, hget2]

theorem setExisting_mismatch_error {e : Entry} {arg : SetArg} {t : Ty}
    (hinfo : e.info = ⟨t⟩) (hst : t.isStronglyTyped = true)
    (hs : arg.staticTy ≠ t) (hr : (arg.toAny).type ≠ t)
    (hparse : arg.isStringLike = true → (arg.stringOf).bind (parseStringAs t) = none)
    (hcast : arg.castingSafe t = false) :
    setExisting e arg = .error (.typeMismatch t arg.staticTy) := by
  cases hsl : arg.isStringLike with
  | true =>
    simp [setExisting, hinfo, TypeInfo.isStronglyTyped, hst, Ne.symm hs, Ne.symm hr,
      hsl, hparse hsl, hcast]
  | false =>
    simp [setExisting, hinfo, TypeInfo.isStronglyTyped, hst, Ne.symm hs, Ne.symm hr,
      hsl, hcast]

end BT

namespace BT

/-! ## Claim theorems -/

/-- The entry stored under key `k` in the scope at depth `lvl` of the parent
chain (0 is the store itself). Quantifying over `lvl` and `k` ranges over
every slot of every scope of the hierarchy. -/
def scopeEntry (bb : Blackboard) (lvl : Nat) (k : String) : Option Entry :=
  (bb.get? lvl).bind fun s => lookupList s.storage k

/-- C1: for every slot, once its declared type is strongly typed, its type
identity never changes: after any `set` call (accepted or rejected), every
slot of every scope still exists with a descriptor that is either unchanged
or was not yet strongly typed before the call — so the only type transition
is the open-to-strongly-typed transition, and a strongly-typed declared type
is never altered. (`get` and `entryInfo` are pure observations in this model
and cannot change any descriptor.) -/
theorem c1_declared_type_stable (bb : Blackboard) :
    ∀ (key : String) (arg : SetArg) (lvl : Nat) (q : String) (e : Entry),
      scopeEntry bb lvl q = some e →
      ∃ e1, scopeEntry ((setBB bb key arg).state) lvl q = some e1 ∧
        (e1.info = e.info ∨ e.info.isStronglyTyped = false) := by
  induction bb with
  | nil =>
    intro key arg lvl q e h
    simp [scopeEntry] at h
  | cons s ps ih =>
    intro key arg lvl q e h
    cases hl : lookupList s.storage key with
    | some e0 =>
      cases hse : setExisting e0 arg with
      | ok e1 =>
        have hstate : (setBB (s :: ps) key arg).state = s.updateEntry key e1 :: ps := by
          simp [setBB, hl, hse, SetResult.state]
        rw [hstate]
        cases lvl with
        | zero =>
          by_cases hqk : q = key
          · subst hqk
            have he : e0 = e := by
              have h0 : lookupList s.storage q = some e := by simpa [scopeEntry] using h
              rw [hl] at h0
              exact Option.some.inj h0
            subst he
            refine ⟨e1, ?_, setExisting_info hse⟩
            simp [scopeEntry, Scope.updateEntry, lookupList_update_self hl]
          · refine ⟨e, ?_, Or.inl rfl⟩
            have h0 : lookupList s.storage q = some e := by simpa [scopeEntry] using h
            simp [scopeEntry, Scope.updateEntry, lookupList_update_ne hqk, h0]
        | succ n =>
          refine ⟨e, ?_, Or.inl rfl⟩
          simpa [scopeEntry] using h
      | error er =>
        have hstate : (setBB (s :: ps) key arg).state = s :: ps := by
          simp [setBB, hl, hse, SetResult.state]
        rw [hstate]
        exact ⟨e, h, Or.inl rfl⟩
    | none =>
      have hinsert :
          ∀ (st : Blackboard), st = s.insertEntry key (freshEntry arg) :: ps →
          ∃ e1, scopeEntry st lvl q = some e1 ∧
            (e1.info = e.info ∨ e.info.isStronglyTyped = false) := by
        intro st hst
        subst hst
        refine ⟨e, ?_, Or.inl rfl⟩
        cases lvl with
        | zero =>
          have h0 : lookupList s.storage q = some e := by simpa [scopeEntry] using h
          simp [scopeEntry, Scope.insertEntry, lookupList_append_some h0]
        | succ n =>
          simpa [scopeEntry] using h
      have hrecurse :
          ∀ (k2 : String), (setBB (s :: ps) key arg).state = s :: (setBB ps k2 arg).state →
          ∃ e1, scopeEntry ((setBB (s :: ps) key arg).state) lvl q = some e1 ∧
            (e1.info = e.info ∨ e.info.isStronglyTyped = false) := by
        intro k2 hst
        rw [hst]
        cases lvl with
        | zero =>
          refine ⟨e, ?_, Or.inl rfl⟩
          have h0 : lookupList s.storage q = some e := by simpa [scopeEntry] using h
          simpa [scopeEntry] using h0
        | succ n =>
          have h0 : scopeEntry ps n q = some e := by simpa [scopeEntry] using h
          obtain ⟨e1, h1, h2⟩ := ih k2 arg n q e h0
          refine ⟨e1, ?_, h2⟩
          simpa [scopeEntry] using h1
      cases hr : lookupList s.internalToExternal key with
      | some ext =>
        cases hps : ps.isEmpty with
        | true =>
          have hstate : (setBB (s :: ps) key arg).state =
              s.insertEntry key (freshEntry arg) :: ps := by
            simp [setBB, hl, hr, hps, SetResult.state]
          rw [hstate]
          exact hinsert _ rfl
        | false =>
          exact hrecurse ext (by simp [setBB, hl, hr, hps, consScope_state])
      | none =>
        cases hauto : s.autoremapping && !ps.isEmpty with
        | true =>
          exact hrecurse key (by simp [setBB, hl, hr, hauto, consScope_state])
        | false =>
          have hstate : (setBB (s :: ps) key arg).state =
              s.insertEntry key (freshEntry arg) :: ps := by
            simp [setBB, hl, hr, hauto, SetResult.state]
          rw [hstate]
          exact hinsert _ rfl

/-- Witness for C1 at a concrete store: a strongly-typed int slot keeps its
declared type across a `set` of a string-parsable value. -/
theorem c1_declared_type_stable_witness :
    ∃ e1, scopeEntry ((setBB [⟨[("k", ⟨⟨some (.vInt 5)⟩, ⟨.tInt⟩⟩)], [], false⟩]
        "k" (.concrete (.vString "7"))).state) 0 "k" = some e1 ∧
      (e1.info = Entry.info ⟨⟨some (.vInt 5)⟩, ⟨.tInt⟩⟩ ∨
        (Entry.info ⟨⟨some (.vInt 5)⟩, ⟨.tInt⟩⟩).isStronglyTyped = false) :=
  c1_declared_type_stable [⟨[("k", ⟨⟨some (.vInt 5)⟩, ⟨.tInt⟩⟩)], [], false⟩]
    "k" (.concrete (.vString "7")) 0 "k" ⟨⟨some (.vInt 5)⟩, ⟨.tInt⟩⟩ rfl

/-- C2: a `set` on a key whose resolved slot is fixed to type `t`, with a
value whose static and runtime types differ from `t`, that is not
string-parsable into `t` and not a safe numeric cast into `t`, fails with a
type-mismatch error and leaves the whole store — in particular the slot's
value and declared type — exactly as before the call (all-or-nothing). -/
theorem c2_rejected_set_all_or_nothing (bb : Blackboard) (key : String)
    (arg : SetArg) (e : Entry) (t : Ty)
    (hres : getEntryL bb key = some e) (hinfo : e.info = ⟨t⟩)
    (hst : t.isStronglyTyped = true)
    (hs : arg.staticTy ≠ t) (hr : (arg.toAny).type ≠ t)
    (hparse : arg.isStringLike = true →
      (arg.stringOf).bind (parseStringAs t) = none)
    (hcast : arg.castingSafe t = false) :
    setBB bb key arg = .err (.typeMismatch t arg.staticTy) bb :=
  setBB_resolved_err bb key arg e _ hres
    (setExisting_mismatch_error hinfo hst hs hr hparse hcast)

/-- Witness for C2: writing the string `"hello"` into an int-typed slot
fails with a type mismatch and leaves the store untouched. -/
theorem c2_rejected_set_all_or_nothing_witness :
    setBB [⟨[("k", ⟨⟨some (.vInt 5)⟩, ⟨.tInt⟩⟩)], [], false⟩] "k"
        (.concrete (.vString "hello")) =
      .err (.typeMismatch .tInt .tString)
        [⟨[("k", ⟨⟨some (.vInt 5)⟩, ⟨.tInt⟩⟩)], [], false⟩] :=
  c2_rejected_set_all_or_nothing
    [⟨[("k", ⟨⟨some (.vInt 5)⟩, ⟨.tInt⟩⟩)], [], false⟩] "k"
    (.concrete (.vString "hello")) ⟨⟨some (.vInt 5)⟩, ⟨.tInt⟩⟩ .tInt
    rfl rfl rfl (by decide) (by decide) (fun _ => by decide) (by decide)

/-- C3: when `set` reaches a slot already fixed to type `t` it (a) commits
the raw new value directly when the static type or the runtime type of the
new value equals `t`; (b) otherwise, for a string-like argument whose parse
into `t` succeeds, commits the parsed value; (c) otherwise, when the safe
numeric cast applies, commits the raw new value; (d) only when both
fallbacks fail raises a type mismatch reporting the previously declared type
and the offending type. -/
theorem c3_set_decision_order (e : Entry) (arg : SetArg) (t : Ty)
    (hinfo : e.info = ⟨t⟩) (hst : t.isStronglyTyped = true) :
    ((arg.staticTy = t ∨ (arg.toAny).type = t) →
        setExisting e arg = commitValue e arg arg.toAny)
    ∧ (arg.staticTy ≠ t → (arg.toAny).type ≠ t →
        ∀ p, arg.isStringLike = true →
          (arg.stringOf).bind (parseStringAs t) = some p →
          setExisting e arg = commitValue e arg ⟨some p⟩)
    ∧ (arg.staticTy ≠ t → (arg.toAny).type ≠ t →
        (arg.isStringLike = true →
          (arg.stringOf).bind (parseStringAs t) = none) →
        arg.castingSafe t = true →
        setExisting e arg = commitValue e arg arg.toAny)
    ∧ (arg.staticTy ≠ t → (arg.toAny).type ≠ t →
        (arg.isStringLike = true →
          (arg.stringOf).bind (parseStringAs t) = none) →
        arg.castingSafe t = false →
        setExisting e arg = .error (.typeMismatch t arg.staticTy)) := by
  refine ⟨?_, ?_, ?_, ?_⟩
  · intro hdir
    have hcond : ¬(t ≠ arg.staticTy ∧ t ≠ (arg.toAny).type) := by
      rcases hdir with h | h
      · exact fun hc => hc.1 h.symm
      · exact fun hc => hc.2 h.symm
    simp [setExisting, hinfo, TypeInfo.isStronglyTyped, hst, hcond]
  · intro hs hr p hsl hp
    simp [setExisting, hinfo, TypeInfo.isStronglyTyped, hst, Ne.symm hs,
      Ne.symm hr, hsl, hp]
  · intro hs hr hparse hcast
    cases hsl : arg.isStringLike with
    | true =>
      simp [setExisting, hinfo, TypeInfo.isStronglyTyped, hst, Ne.symm hs,
        Ne.symm hr, hsl, hparse hsl, hcast]
    | false =>
      simp [setExisting, hinfo, TypeInfo.isStronglyTyped, hst, Ne.symm hs,
        Ne.symm hr, hsl, hcast]
  · intro hs hr hparse hcast
    exact setExisting_mismatch_error hinfo hst hs hr hparse hcast

/-- Witness for C3: a direct-acceptance instance — writing an int into an
int-typed slot goes straight to the commit step. -/
theorem c3_set_decision_order_witness :
    setExisting ⟨⟨some (.vInt 5)⟩, ⟨.tInt⟩⟩ (.concrete (.vInt 7)) =
      commitValue ⟨⟨some (.vInt 5)⟩, ⟨.tInt⟩⟩ (.concrete (.vInt 7))
        (SetArg.toAny (.concrete (.vInt 7))) :=
  (c3_set_decision_order ⟨⟨some (.vInt 5)⟩, ⟨.tInt⟩⟩ (.concrete (.vInt 7))
    .tInt rfl rfl).1 (Or.inl rfl)

end BT

namespace BT

/-- C4: remap round-trip. With parent store `P` (one scope) and child store
`C = create(P)` carrying the remapping `in -> out`: `P.set("out", 42)` makes
`C.get<int>("in")` return 42, and `C.set("in", 7)` writes through to the
parent slot — afterwards `P.get<int>("out")` returns 7 and the child scope
still has no local slot for `"in"`. -/
theorem c4_remap_round_trip :
    setBB [Scope.mk [] [] false] "out" (.concrete (.vInt 42)) =
      .ok [⟨[("out", ⟨⟨some (.vInt 42)⟩, ⟨.tInt⟩⟩)], [], false⟩]
    ∧ addSubtreeRemapping (Blackboard.create [Scope.mk [] [] false]) "in" "out" =
      [⟨[], [("in", "out")], false⟩, ⟨[], [], false⟩]
    ∧ getT (⟨[], [("in", "out")], false⟩ ::
        [⟨[("out", ⟨⟨some (.vInt 42)⟩, ⟨.tInt⟩⟩)], [], false⟩]) .tInt "in" =
      .ok (.vInt 42)
    ∧ setBB (⟨[], [("in", "out")], false⟩ ::
        [⟨[("out", ⟨⟨some (.vInt 42)⟩, ⟨.tInt⟩⟩)], [], false⟩]) "in"
        (.concrete (.vInt 7)) =
      .ok [⟨[], [("in", "out")], false⟩,
           ⟨[("out", ⟨⟨some (.vInt 7)⟩, ⟨.tInt⟩⟩)], [], false⟩]
    ∧ getT [⟨[("out", ⟨⟨some (.vInt 7)⟩, ⟨.tInt⟩⟩)], [], false⟩] .tInt "out" =
      .ok (.vInt 7)
    ∧ lookupList (Scope.storage ⟨[], [("in", "out")], false⟩) "in" = none :=
  ⟨rfl, rfl, rfl, rfl, rfl, rfl⟩

/-- C5: for a slot fixed to `uint8` holding a numeric (or no) value, a `set`
with an `int` value is accepted iff the value is representable in `uint8`
(non-negative and below 256); otherwise the call fails with a type mismatch
and leaves the whole store unchanged. -/
theorem c5_safe_numeric_narrowing (bb : Blackboard) (key : String)
    (e : Entry) (i : Int)
    (hres : getEntryL bb key = some e) (hinfo : e.info = ⟨.tUInt8⟩)
    (hval : e.value.val = none ∨ ∃ d, e.value.val = some d ∧ d.isNumber = true) :
    ((0 ≤ i ∧ i < 256) →
      ∃ bb2, setBB bb key (.concrete (.vInt i)) = .ok bb2)
    ∧ (¬(0 ≤ i ∧ i < 256) →
      setBB bb key (.concrete (.vInt i)) = .err (.typeMismatch .tUInt8 .tInt) bb) := by
  constructor
  · intro hi
    have hcs : SetArg.castingSafe (.concrete (.vInt i)) .tUInt8 = true := by
      simp [SetArg.castingSafe, Val.isNumber, isCastingSafe, hi.1, hi.2]
    have hcommit : commitValue e (.concrete (.vInt i)) ⟨some (.vInt i)⟩ =
        .ok { value := ⟨some (.vInt i)⟩, info := e.info } := by
      rcases hval with hnone | ⟨d, hd, hdnum⟩
      · simp [commitValue, SetArg.isAnyBox, Any.copyInto, hnone]
      · cases d with
        | vInt j =>
          simp [commitValue, SetArg.isAnyBox, Any.copyInto, hd, Val.runtimeTy]
        | vUInt8 n =>
          simp [commitValue, SetArg.isAnyBox, Any.copyInto, hd, Val.isNumber,
            Val.runtimeTy]
        | vString s2 => simp [Val.isNumber] at hdnum
        | vOther a b => simp [Val.isNumber] at hdnum
    have hse : setExisting e (.concrete (.vInt i)) =
        .ok { value := ⟨some (.vInt i)⟩, info := e.info } := by
      simp [setExisting, hinfo, TypeInfo.isStronglyTyped, Ty.isStronglyTyped,
        SetArg.staticTy, Val.runtimeTy, SetArg.toAny, Any.type,
        SetArg.isStringLike, hcs, hcommit]
    obtain ⟨bb2, hbb2, _⟩ :=
      setBB_resolved_ok bb key (.concrete (.vInt i)) e _ hres hse
    exact ⟨bb2, hbb2⟩
  · intro hni
    have hcs : SetArg.castingSafe (.concrete (.vInt i)) .tUInt8 = false := by
      rcases Decidable.em (0 ≤ i) with h0 | h0
      · rcases Decidable.em (i < 256) with h1 | h1
        · exact absurd ⟨h0, h1⟩ hni
        · simp [SetArg.castingSafe, Val.isNumber, isCastingSafe, h1]
      · simp [SetArg.castingSafe, Val.isNumber, isCastingSafe, h0]
    have hs : (SetArg.concrete (Val.vInt i)).staticTy ≠ Ty.tUInt8 := by
      simp [SetArg.staticTy, Val.runtimeTy]
    have hr : ((SetArg.concrete (Val.vInt i)).toAny).type ≠ Ty.tUInt8 := by
      simp [SetArg.toAny, Any.type, Val.runtimeTy]
    exact setBB_resolved_err bb key _ e _ hres
      (setExisting_mismatch_error hinfo rfl hs hr
        (fun h => by simp [SetArg.isStringLike] at h) hcs)

/-- Witness for C5 at the spec's own inputs: 200 is accepted, 300 and -1 are
rejected with a type mismatch leaving the store unchanged. -/
theorem c5_safe_numeric_narrowing_witness :
    (∃ bb2, setBB [⟨[("k", ⟨⟨some (.vUInt8 5)⟩, ⟨.tUInt8⟩⟩)], [], false⟩] "k"
        (.concrete (.vInt 200)) = .ok bb2)
    ∧ setBB [⟨[("k", ⟨⟨some (.vUInt8 5)⟩, ⟨.tUInt8⟩⟩)], [], false⟩] "k"
        (.concrete (.vInt 300)) =
      .err (.typeMismatch .tUInt8 .tInt)
        [⟨[("k", ⟨⟨some (.vUInt8 5)⟩, ⟨.tUInt8⟩⟩)], [], false⟩]
    ∧ setBB [⟨[("k", ⟨⟨some (.vUInt8 5)⟩, ⟨.tUInt8⟩⟩)], [], false⟩] "k"
        (.concrete (.vInt (-1))) =
      .err (.typeMismatch .tUInt8 .tInt)
        [⟨[("k", ⟨⟨some (.vUInt8 5)⟩, ⟨.tUInt8⟩⟩)], [], false⟩] :=
  ⟨(c5_safe_numeric_narrowing
      [⟨[("k", ⟨⟨some (.vUInt8 5)⟩, ⟨.tUInt8⟩⟩)], [], false⟩] "k"
      ⟨⟨some (.vUInt8 5)⟩, ⟨.tUInt8⟩⟩ 200 rfl rfl
      (Or.inr ⟨.vUInt8 5, rfl, rfl⟩)).1 (by decide),
   (c5_safe_numeric_narrowing
      [⟨[("k", ⟨⟨some (.vUInt8 5)⟩, ⟨.tUInt8⟩⟩)], [], false⟩] "k"
      ⟨⟨some (.vUInt8 5)⟩, ⟨.tUInt8⟩⟩ 300 rfl rfl
      (Or.inr ⟨.vUInt8 5, rfl, rfl⟩)).2 (by decide),
   (c5_safe_numeric_narrowing
      [⟨[("k", ⟨⟨some (.vUInt8 5)⟩, ⟨.tUInt8⟩⟩)], [], false⟩] "k"
      ⟨⟨some (.vUInt8 5)⟩, ⟨.tUInt8⟩⟩ (-1) rfl rfl
      (Or.inr ⟨.vUInt8 5, rfl, rfl⟩)).2 (by decide)⟩

/-- C6 counterexample: `set<BT::Any>` does NOT bypass all type checks. On a
slot fixed to `int`, setting an `Any` holding a string fails with a type
mismatch instead of overwriting the slot unconditionally as the claim
predicts. -/
theorem c6_counterexample_set_any_not_unconditional :
    setBB [⟨[("k", ⟨⟨some (.vInt 5)⟩, ⟨.tInt⟩⟩)], [], false⟩] "k"
        (.anyBox ⟨some (.vString "x")⟩) =
      .err (.typeMismatch .tInt .tAnyBox)
        [⟨[("k", ⟨⟨some (.vInt 5)⟩, ⟨.tInt⟩⟩)], [], false⟩]
    ∧ setBB [⟨[("k", ⟨⟨some (.vInt 5)⟩, ⟨.tInt⟩⟩)], [], false⟩] "k"
        (.anyBox ⟨some (.vString "x")⟩) ≠
      .ok [⟨[("k", ⟨⟨some (.vString "x")⟩, ⟨.tInt⟩⟩)], [], false⟩] := by
  decide

/-- C6 (amended): on a strongly-typed slot, `set<BT::Any>` is still subject
to the type-mismatch check against the runtime type held inside the `Any`:
when that inner type equals the declared type, it assigns the `Any` directly
(skipping only the final copy-compatibility step), and otherwise it fails
with a type mismatch. -/
theorem c6_set_any_type_checked (e : Entry) (a : Any) (t : Ty)
    (hinfo : e.info = ⟨t⟩) (hst : t.isStronglyTyped = true) :
    (a.type = t → setExisting e (.anyBox a) = .ok { e with value := a })
    ∧ (a.type ≠ t →
        setExisting e (.anyBox a) = .error (.typeMismatch t .tAnyBox)) := by
  constructor
  · intro heq
    have hcond : ¬(t ≠ SetArg.staticTy (.anyBox a)
        ∧ t ≠ (SetArg.toAny (.anyBox a)).type) := fun hc => hc.2 heq.symm
    simp [setExisting, hinfo, TypeInfo.isStronglyTyped, hst, hcond,
      commitValue, SetArg.isAnyBox, SetArg.toAny]
    intro h1 h2
    exact absurd heq.symm h2
  · intro hne
    have h1 : SetArg.staticTy (.anyBox a) ≠ t := by
      intro hh
      have h2 : Ty.tAnyBox = t := hh
      rw [← h2] at hst
      simp [Ty.isStronglyTyped] at hst
    exact setExisting_mismatch_error hinfo hst h1 hne
      (fun h => by simp [SetArg.isStringLike] at h) (by simp [SetArg.castingSafe])

/-- Witness for C6 (amended): direct assignment when the inner type matches,
type mismatch when it does not. -/
theorem c6_set_any_type_checked_witness :
    setExisting ⟨⟨some (.vInt 5)⟩, ⟨.tInt⟩⟩ (.anyBox ⟨some (.vInt 9)⟩) =
      .ok ⟨⟨some (.vInt 9)⟩, ⟨.tInt⟩⟩
    ∧ setExisting ⟨⟨some (.vInt 5)⟩, ⟨.tInt⟩⟩ (.anyBox ⟨some (.vString "x")⟩) =
      .error (.typeMismatch .tInt .tAnyBox) :=
  ⟨(c6_set_any_type_checked ⟨⟨some (.vInt 5)⟩, ⟨.tInt⟩⟩ ⟨some (.vInt 9)⟩ .tInt
      rfl rfl).1 rfl,
   (c6_set_any_type_checked ⟨⟨some (.vInt 5)⟩, ⟨.tInt⟩⟩ ⟨some (.vString "x")⟩ .tInt
      rfl rfl).2 (by decide)⟩

/-- C7 counterexample: a brand-new slot created by `set` with a string
LITERAL is NOT created open/generic: since the deduced template parameter of
the call is a character array and not `std::string`, the
`std::is_same_v<std::string, T>` test of `blackboard.h:192` fails and the
slot is pinned to the string type. -/
theorem c7_counterexample_literal_pins_type :
    setBB [⟨[], [], false⟩] "k" (.literal "hello") =
      .ok [⟨[("k", ⟨⟨some (.vString "hello")⟩, ⟨.tString⟩⟩)], [], false⟩]
    ∧ entryInfoL [⟨[("k", ⟨⟨some (.vString "hello")⟩, ⟨.tString⟩⟩)], [], false⟩]
        "k" = some ⟨.tString⟩
    ∧ (⟨.tString⟩ : TypeInfo).isStronglyTyped = true
    ∧ (⟨.tString⟩ : TypeInfo) ≠ openPortInfo := by
  decide

/-- C7 (amended): whenever `set` creates a brand-new slot (key not present
locally, no remap entry, no auto-remap), the created entry is `freshEntry`:
a value of static type exactly `std::string` leaves the slot open/generic; a
string literal pins the slot to the string type; every other concrete value
pins the slot to the value's own type. -/
theorem c7_fresh_entry_typing (s : Scope) (ps : Blackboard) (key : String)
    (arg : SetArg)
    (hl : lookupList s.storage key = none)
    (hr : lookupList s.internalToExternal key = none)
    (hauto : s.autoremapping = false) :
    setBB (s :: ps) key arg = .ok (s.insertEntry key (freshEntry arg) :: ps)
    ∧ (∀ str, (freshEntry (.concrete (.vString str))).info = openPortInfo)
    ∧ (∀ str, (freshEntry (.literal str)).info = ⟨.tString⟩)
    ∧ (∀ v : Val, (∀ str, v ≠ .vString str) →
        (freshEntry (.concrete v)).info = ⟨v.runtimeTy⟩) := by
  refine ⟨?_, ?_, ?_, ?_⟩
  · simp [setBB, hl, hr, hauto]
  · intro str
    rfl
  · intro str
    rfl
  · intro v hv
    cases v with
    | vInt i => rfl
    | vUInt8 n => rfl
    | vString str => exact absurd rfl (hv str)
    | vOther a b => rfl

/-- Witness for C7 (amended) at a concrete creation. -/
theorem c7_fresh_entry_typing_witness :
    setBB [Scope.mk [] [] false] "k" (.concrete (.vInt 1)) =
      .ok ((Scope.mk [] [] false).insertEntry "k"
        (freshEntry (.concrete (.vInt 1))) :: []) :=
  (c7_fresh_entry_typing (Scope.mk [] [] false) [] "k" (.concrete (.vInt 1))
    rfl rfl rfl).1

/-- C8: the throwing `get<T>` fails with "missing key" iff the key resolves
to no entry; it fails with "not initialized" iff the key resolves to an
entry whose value was never assigned; and on an entry holding a value of the
slot's fixed type it returns that value when `T` agrees with the fixed type
and fails with a cast type-mismatch when `T` disagrees. -/
theorem c8_throwing_get_contract (bb : Blackboard) (ty : Ty) (key : String) :
    (getT bb ty key = .error .keyNotFound ↔ getEntryL bb key = none)
    ∧ (getT bb ty key = .error .uninitialized ↔
        ∃ e, getEntryL bb key = some e ∧ e.value.val = none)
    ∧ (∀ e v t, getEntryL bb key = some e → e.info = ⟨t⟩ →
        e.value.val = some v → v.runtimeTy = t →
        (ty = t → getT bb ty key = .ok v)
        ∧ (ty ≠ t → getT bb ty key = .error (.castFail .typeMismatch))) := by
  cases hres : getEntryL bb key with
  | none =>
    refine ⟨by simp [getT, hres], by simp [getT, hres], ?_⟩
    intro e v t he _ _ _
    exact Option.noConfusion he
  | some e =>
    cases hval : e.value.val with
    | none =>
      refine ⟨by simp [getT, hres, Any.empty, hval],
              by simp [getT, hres, Any.empty, hval], ?_⟩
      intro e2 v t he _ hv _
      cases Option.some.inj he
      rw [hval] at hv
      exact Option.noConfusion hv
    | some v0 =>
      by_cases hrt : v0.runtimeTy = ty
      · refine ⟨by simp [getT, hres, Any.empty, hval, Any.cast, hrt],
                by simp [getT, hres, Any.empty, hval, Any.cast, hrt], ?_⟩
        intro e2 v t he hinfo hv hvt
        cases Option.some.inj he
        rw [hval] at hv
        cases Option.some.inj hv
        constructor
        · intro hty
          simp [getT, hres, Any.empty, hval, Any.cast, hrt]
        · intro hty
          exact absurd (hrt.symm.trans hvt) hty
      · refine ⟨by simp [getT, hres, Any.empty, hval, Any.cast, hrt],
                by simp [getT, hres, Any.empty, hval, Any.cast, hrt], ?_⟩
        intro e2 v t he hinfo hv hvt
        cases Option.some.inj he
        rw [hval] at hv
        cases Option.some.inj hv
        constructor
        · intro hty
          exact absurd (hty.symm ▸ hvt : v0.runtimeTy = ty) hrt
        · intro hty
          simp [getT, hres, Any.empty, hval, Any.cast, hrt]

/-- Witness for C8: reading a uint8-typed slot as int fails with a cast
type-mismatch. -/
theorem c8_throwing_get_contract_witness :
    getT [⟨[("k", ⟨⟨some (.vUInt8 5)⟩, ⟨.tUInt8⟩⟩)], [], false⟩] .tInt "k" =
      .error (.castFail .typeMismatch) :=
  ((c8_throwing_get_contract
      [⟨[("k", ⟨⟨some (.vUInt8 5)⟩, ⟨.tUInt8⟩⟩)], [], false⟩] .tInt "k").2.2
    ⟨⟨some (.vUInt8 5)⟩, ⟨.tUInt8⟩⟩ (.vUInt8 5) .tUInt8 rfl rfl rfl rfl).2
    (by decide)

/-- C10: the non-throwing `get(key, out)` returns "not found" iff the key
resolves to no entry; for a key resolving to an entry that was never
assigned a value it does not report "not found" but attempts the cast, which
surfaces the emptiness as an uninitialized-value cast failure. -/
theorem c10_nonthrowing_get_contract (bb : Blackboard) (ty : Ty) (key : String) :
    (getOut bb ty key = .notFound ↔ getEntryL bb key = none)
    ∧ (∀ e, getEntryL bb key = some e → e.value.val = none →
        getOut bb ty key = .castError .uninitValue) := by
  cases hres : getEntryL bb key with
  | none =>
    refine ⟨by simp [getOut, hres], ?_⟩
    intro e he _
    exact Option.noConfusion he
  | some e =>
    refine ⟨?_, ?_⟩
    · cases hval : e.value.val with
      | none => simp [getOut, hres, Any.cast, hval]
      | some v0 =>
        by_cases hrt : v0.runtimeTy = ty
        · simp [getOut, hres, Any.cast, hval, hrt]
        · simp [getOut, hres, Any.cast, hval, hrt]
    · intro e2 he hval
      cases Option.some.inj he
      simp [getOut, hres, Any.cast, hval]

/-- Witness for C10: a declared-but-never-assigned slot is reported as a
cast failure, not as "not found". -/
theorem c10_nonthrowing_get_contract_witness :
    getOut [⟨[("k", ⟨⟨none⟩, ⟨.tInt⟩⟩)], [], false⟩] .tInt "k" =
      .castError .uninitValue :=
  (c10_nonthrowing_get_contract
      [⟨[("k", ⟨⟨none⟩, ⟨.tInt⟩⟩)], [], false⟩] .tInt "k").2
    ⟨⟨none⟩, ⟨.tInt⟩⟩ rfl rfl

end BT

namespace BT

/-- C9 counterexample: value-level work does NOT avoid the store's
structural lock. In a `set` on an existing local slot, the write of the
stored value happens while the structural mutex (`blackboard.h:181`) is
still held (together with the entry mutex of `blackboard.h:212`): the scan
of the event trace records the value write with the structural lock held,
refuting "never while holding the store's structural lock". -/
theorem c9_counterexample_structural_lock_held :
    scanOps "k" 0 0 (setEvents
        [⟨[("k", ⟨⟨some (.vInt 5)⟩, ⟨.tInt⟩⟩)], [], false⟩]
        "k" (.concrete (.vInt 7))) = [(true, true)]
    ∧ ((scanOps "k" 0 0 (setEvents
        [⟨[("k", ⟨⟨some (.vInt 5)⟩, ⟨.tInt⟩⟩)], [], false⟩]
        "k" (.concrete (.vInt 7)))).all fun p => !p.1) = false := by
  decide

/-- C9 (amended): during `set` on an existing local slot, every access to
the slot's stored value or descriptor happens while holding BOTH the store's
structural lock and the slot's own lock; on the slot-creation path the
initial value write happens under the structural lock alone, with no
slot lock held at all. -/
theorem c9_locking_discipline (s : Scope) (ps : Blackboard) (key : String)
    (arg : SetArg) :
    (∀ e, lookupList s.storage key = some e →
      ((scanOps key 0 0 (setEvents (s :: ps) key arg)).all
        fun p => p.1 && p.2) = true)
    ∧ (lookupList s.storage key = none →
        lookupList s.internalToExternal key = none →
        s.autoremapping = false →
        scanOps key 0 0 (setEvents (s :: ps) key arg) = [(true, false)]) := by
  constructor
  · intro e hl
    cases hse : setExisting e arg with
    | ok e1 =>
      cases hsty : e.info.isStronglyTyped with
      | true => simp [setEvents, hl, hse, hsty, scanOps]
      | false => simp [setEvents, hl, hse, hsty, scanOps]
    | error er => simp [setEvents, hl, hse, scanOps]
  · intro hl hr hauto
    simp [setEvents, hl, hr, hauto, createEntryEvents, scanOps]

/-- Witness for C9 (amended): the existing-slot branch at a concrete store —
all value accesses occur under both locks. -/
theorem c9_locking_discipline_witness :
    ((scanOps "k" 0 0 (setEvents
        [⟨[("k", ⟨⟨some (.vInt 5)⟩, ⟨.tInt⟩⟩)], [], false⟩]
        "k" (.concrete (.vInt 7)))).all fun p => p.1 && p.2) = true :=
  (c9_locking_discipline ⟨[("k", ⟨⟨some (.vInt 5)⟩, ⟨.tInt⟩⟩)], [], false⟩ []
    "k" (.concrete (.vInt 7))).1 ⟨⟨some (.vInt 5)⟩, ⟨.tInt⟩⟩ rfl

end BT
